import Mathlib

/-!
Shallow embedding of the CRM write path of `crm/schema.py` and `crm/models.py`:
the mutations CreateCustomer, BulkCreateCustomers, CreateProduct, CreateOrder
over an explicit entity store, together with the model-level validation rules
(`Customer.phone_regex`, field constraints enforced by `full_clean`).

Modelling conventions:
- Decimal money values (`Product.price`, `Order.total_amount`, both
  `DecimalField(max_digits=10, decimal_places=2)`) are represented as integer
  cents, so `9.99` is `999` and the `max_digits=10` bound is `|cents| < 10^10`.
- Database state is threaded explicitly: each mutation maps a `State` and an
  input to a result (`Except Err ...`) plus the resulting `State`.
- `@transaction.atomic` on `CreateOrder.mutate` is modelled by the wrapper
  `createOrder`, which restores the initial state whenever the body fails;
  the three writes inside the transaction (`order.save()`, `products.set(...)`,
  `calculate_total()`) commit as their net effect, a single Order row carrying
  its (deduplicated, as Django's m2m `set` dedupes) product associations and
  the computed total.
- `order_date` and the server-assigned timestamps are orthogonal to every
  property treated here and are omitted from the record types.
- Django's `EmailValidator` is modelled by a simplified executable predicate
  (`emailValid`): one `@`, non-empty local part, a dot in the non-empty domain,
  length at most the `EmailField` default of 254. No property below depends on
  its fine structure.
-/

/-- Stored customer row (`crm/models.py`, class `Customer`). -/
structure Customer where
  id : Nat
  name : String
  email : String
  phone : Option String
deriving DecidableEq

/-- Stored product row (`crm/models.py`, class `Product`); `price` in cents. -/
structure Product where
  id : Nat
  name : String
  price : Int
  stock : Int
deriving DecidableEq

/-- Stored order row (`crm/models.py`, class `Order`): owning customer, the
many-to-many product association (a duplicate-free id list), and the snapshot
`total_amount` in cents. -/
structure Order where
  id : Nat
  customerId : Nat
  productIds : List Nat
  totalAmount : Int
deriving DecidableEq

/-- The entity store: the three tables plus per-table id counters. -/
structure State where
  customers : List Customer
  products : List Product
  orders : List Order
  nextCustomerId : Nat
  nextProductId : Nat
  nextOrderId : Nat
deriving DecidableEq

/-- The empty store. -/
def State.empty : State := ⟨[], [], [], 1, 1, 1⟩

/-- Error taxonomy of the write path, one constructor per `raise` site. -/
inductive Err where
  /-- `ValidationError("Email already exists")` / the bulk pre-check message;
  carries the offending email. -/
  | emailExists : String → Err
  /-- `full_clean()` raised `ValidationError` on a Customer candidate. -/
  | invalidCustomer : Err
  /-- `Customer with ID {id} does not exist` in `CreateOrder.mutate`. -/
  | customerNotFound : Nat → Err
  /-- `At least one product must be selected`. -/
  | noProducts : Err
  /-- `Product with ID {id} does not exist`. -/
  | productNotFound : Nat → Err
  /-- `Price must be positive`. -/
  | priceNotPositive : Err
  /-- `Stock cannot be negative`. -/
  | negativeStock : Err
  /-- `full_clean()` raised `ValidationError` on a Product candidate. -/
  | invalidProduct : Err
deriving DecidableEq

deriving instance DecidableEq for Except

/-- Mutation input for CreateCustomer / each BulkCreateCustomers row
(`CustomerInput` in `crm/schema.py`). -/
structure CustomerInput where
  name : String
  email : String
  phone : Option String
deriving DecidableEq

/-- Mutation input for CreateProduct (`ProductInput`); `price` in cents,
`stock` optional with default 0 (graphene `default_value=0` /
`input.get('stock', 0)`). -/
structure ProductInput where
  name : String
  price : Int
  stock : Option Int
deriving DecidableEq

/-- Mutation input for CreateOrder (`OrderInput`). -/
structure OrderInput where
  customerId : Nat
  productIds : List Nat
deriving DecidableEq

/-! ### Validation layer -/

/-- All characters are ASCII digits. -/
def allDigits (l : List Char) : Bool := l.all Char.isDigit

/-- The ways an optional single-character regex atom (`\+?`, `1?`) can consume
the front of the input: if the head matches, either consume it or not. This
realises the backtracking of the regex engine on the two optionals. -/
def stripOpt (c : Char) (l : List Char) : List (List Char) :=
  match l with
  | [] => [[]]
  | x :: xs => if x = c then [xs, x :: xs] else [x :: xs]

/-- `\d{9,15}` anchored to the end of input. -/
def digitsRun (l : List Char) : Bool :=
  allDigits l && decide (9 ≤ l.length) && decide (l.length ≤ 15)

/-- First alternative of `Customer.phone_regex`: `^\+?1?\d{9,15}$`. -/
def phoneBranchIntl (l : List Char) : Bool :=
  (stripOpt '+' l).any fun l1 => (stripOpt '1' l1).any digitsRun

/-- Second alternative of `Customer.phone_regex`: `^\d{3}-\d{3}-\d{4}$`. -/
def phoneBranchDashed (l : List Char) : Bool :=
  match l with
  | [a, b, c, d, e, f, g, h, i, j, k, m] =>
      allDigits [a, b, c, e, f, g, i, j, k, m] && d = '-' && h = '-'
  | _ => false

/-- `Customer.phone_regex` of `crm/models.py`:
`r'^\+?1?\d{9,15}$|^\d{3}-\d{3}-\d{4}$'`. -/
def phone_regex (s : String) : Bool :=
  phoneBranchIntl s.toList || phoneBranchDashed s.toList

/-- Simplified model of Django's `EmailValidator` on `EmailField`
(max_length 254): exactly one `@`, non-empty local part, non-empty domain
containing a dot. -/
def emailValid (s : String) : Bool :=
  let cs := s.toList
  let loc := cs.takeWhile (fun c => !(c = '@'))
  match cs.dropWhile (fun c => !(c = '@')) with
  | [] => false
  | _ :: dom =>
      !loc.isEmpty && !dom.isEmpty && dom.all (fun c => !(c = '@')) &&
        dom.any (fun c => c = '.') && decide (s.length ≤ 254)

/-- Phone acceptance as enforced by `Customer.full_clean()`: the field is
`blank=True, null=True`, so an absent or empty phone passes; a non-empty phone
must match `phone_regex` and the `max_length=17` bound. -/
def phoneValid (p : Option String) : Bool :=
  match p with
  | none => true
  | some s => s.isEmpty || (phone_regex s && decide (s.length ≤ 17))

/-- `Customer.full_clean()` field validation: non-empty `name` within
`max_length=255`, a well-formed email, and a valid phone. -/
def customerValid (name email : String) (phone : Option String) : Bool :=
  !name.isEmpty && decide (name.length ≤ 255) && emailValid email &&
    phoneValid phone

/-- `Customer.objects.filter(email=email).exists()`. -/
def emailExists (s : State) (email : String) : Bool :=
  s.customers.any fun c => c.email = email

/-! ### CreateCustomer and BulkCreateCustomers -/

/-- `CreateCustomer.mutate` (`crm/schema.py` lines 72–96), also the body of
each BulkCreateCustomers iteration (lines 115–133, which run the identical
pre-check / construct / `full_clean` / `save` sequence): the duplicate-email
pre-check, then model validation, then the single insert. On failure the
raised error leaves the store untouched. -/
def createCustomer (s : State) (inp : CustomerInput) :
    Except Err Customer × State :=
  if emailExists s inp.email then
    (.error (.emailExists inp.email), s)
  else if !customerValid inp.name inp.email inp.phone then
    (.error .invalidCustomer, s)
  else
    let c : Customer := ⟨s.nextCustomerId, inp.name, inp.email, inp.phone⟩
    (.ok c, { s with customers := s.customers ++ [c],
                     nextCustomerId := s.nextCustomerId + 1 })

/-- The error-string rendering of `BulkCreateCustomers.mutate`: the bulk
pre-check emits `f"Row {idx+1}: Email {email} already exists"`, the exception
handlers emit `f"Row {idx+1}: {str(e)}"` (the `ValidationError` text is
abstracted to a fixed reason string). `idx` is the 0-based input position. -/
def rowError (idx : Nat) (e : Err) : String :=
  "Row " ++ toString (idx + 1) ++ ": " ++
    match e with
    | .emailExists email => "Email " ++ email ++ " already exists"
    | _ => "Validation failed"

/-- The loop of `BulkCreateCustomers.mutate` (lines 110–143): rows processed
in input order, each valid row saved individually before later rows run,
failures recorded per row and never aborting the batch. `idx` is the absolute
0-based position of the first row of `rows` in the original input. Returns
(created customers, error strings, final store). -/
def bulkGo (s : State) (idx : Nat) :
    List CustomerInput → List Customer × List String × State
  | [] => ([], [], s)
  | d :: rest =>
      match createCustomer s d with
      | (.ok c, s1) =>
          let r := bulkGo s1 (idx + 1) rest
          (c :: r.1, r.2.1, r.2.2)
      | (.error e, s1) =>
          let r := bulkGo s1 (idx + 1) rest
          (r.1, rowError idx e :: r.2.1, r.2.2)

/-- Result shape of BulkCreateCustomers: `errors` is `None` when no row
failed (`errors if errors else None`). -/
structure BulkResult where
  customers : List Customer
  errors : Option (List String)
deriving DecidableEq

/-- `BulkCreateCustomers.mutate`. -/
def bulkCreateCustomers (s : State) (input : List CustomerInput) :
    BulkResult × State :=
  let r := bulkGo s 0 input
  (⟨r.1, if r.2.1.isEmpty then none else some r.2.1⟩, r.2.2)

/-! ### CreateProduct -/

/-- `Product.full_clean()` field validation: non-empty `name` within
`max_length=255` and `price` within `max_digits=10` (as cents:
`|price| < 10^10`). -/
def productValid (name : String) (price : Int) : Bool :=
  !name.isEmpty && decide (name.length ≤ 255) && decide (price.natAbs < 10 ^ 10)

/-- `CreateProduct.mutate` (`crm/schema.py` lines 156–184): reject
`price <= 0`, then `stock < 0` (with `stock = input.get('stock', 0)`), then
validate and insert. -/
def createProduct (s : State) (inp : ProductInput) :
    Except Err Product × State :=
  if inp.price ≤ 0 then
    (.error .priceNotPositive, s)
  else if inp.stock.getD 0 < 0 then
    (.error .negativeStock, s)
  else if !productValid inp.name inp.price then
    (.error .invalidProduct, s)
  else
    let p : Product := ⟨s.nextProductId, inp.name, inp.price, inp.stock.getD 0⟩
    (.ok p, { s with products := s.products ++ [p],
                     nextProductId := s.nextProductId + 1 })

/-! ### CreateOrder -/

/-- `Customer.objects.get(pk=id)` as an optional lookup. -/
def findCustomer (s : State) (id : Nat) : Option Customer :=
  s.customers.find? fun c => c.id == id

/-- `Product.objects.get(pk=id)` as an optional lookup. -/
def findProduct (s : State) (id : Nat) : Option Product :=
  s.products.find? fun p => p.id == id

/-- The product-resolution loop of `CreateOrder.mutate` (lines 211–218):
resolve every id in input order, failing on the first id that does not
resolve; no partial product list escapes. -/
def resolveProducts (s : State) : List Nat → Except Err (List Product)
  | [] => .ok []
  | pid :: rest =>
      match findProduct s pid with
      | none => .error (.productNotFound pid)
      | some p =>
          match resolveProducts s rest with
          | .error e => .error e
          | .ok ps => .ok (p :: ps)

/-- Body of `CreateOrder.mutate` (lines 197–239) inside the transaction:
resolve the customer, reject an empty `product_ids`, resolve every product,
then commit the new Order row together with its deduplicated many-to-many
association (`order.products.set(products)`) and the snapshot total
(`order.calculate_total()`, the sum of the associated products' prices). -/
def createOrderCore (s : State) (inp : OrderInput) : Except Err Order × State :=
  match findCustomer s inp.customerId with
  | none => (.error (.customerNotFound inp.customerId), s)
  | some c =>
      match inp.productIds with
      | [] => (.error .noProducts, s)
      | _ :: _ =>
          match resolveProducts s inp.productIds with
          | .error e => (.error e, s)
          | .ok prods =>
              let distinct := prods.dedup
              let o : Order := ⟨s.nextOrderId, c.id, distinct.map (·.id),
                                (distinct.map (·.price)).sum⟩
              (.ok o, { s with orders := s.orders ++ [o],
                               nextOrderId := s.nextOrderId + 1 })

/-- `CreateOrder.mutate` with its `@transaction.atomic` decorator: when the
body raises, the transaction rolls back and the store is exactly the initial
one. -/
def createOrder (s : State) (inp : OrderInput) : Except Err Order × State :=
  match createOrderCore s inp with
  | (.ok o, s1) => (.ok o, s1)
  | (.error e, _) => (.error e, s)

/-! ### Reference characterisations (from the spec's words) -/

/-- The phone formats exactly as the spec words them: a `+`-prefixed string of
9–15 digits, or `NNN-NNN-NNNN`. Stated only for comparison with the source's
`phone_regex`. -/
def specPhoneFormat (s : String) : Bool :=
  (match s.toList with
   | '+' :: ds =>
       allDigits ds && decide (9 ≤ ds.length) && decide (ds.length ≤ 15)
   | _ => false) || phoneBranchDashed s.toList

/-- Per-row outcomes of the bulk loop: each row's
pre-check / validate / save attempt in input order, with the store threaded
through earlier rows. Reference characterisation of the batch behaviour. -/
def rowOutcomes (s : State) : List CustomerInput → List (Except Err Customer)
  | [] => []
  | d :: rest => (createCustomer s d).1 :: rowOutcomes (createCustomer s d).2 rest

/-- The store left behind by the bulk loop. -/
def bulkFinal (s : State) : List CustomerInput → State
  | [] => s
  | d :: rest => bulkFinal (createCustomer s d).2 rest

/-- The successfully created customers of an outcome list, in order. -/
def okCustomers : List (Except Err Customer) → List Customer
  | [] => []
  | .ok c :: rest => c :: okCustomers rest
  | .error _ :: rest => okCustomers rest

/-- One `Row N: <reason>` string per failed outcome, `N` the absolute 1-based
input position (`idx` is the 0-based position of the first outcome). -/
def renderErrors (idx : Nat) : List (Except Err Customer) → List String
  | [] => []
  | .ok _ :: rest => renderErrors (idx + 1) rest
  | .error e :: rest => rowError idx e :: renderErrors (idx + 1) rest

/-! ### Fixtures for concrete instantiations -/

/-- A store with one customer (id 1) and two products: id 1 priced 10.00 and
id 2 priced 5.50 (in cents: 1000 and 550). -/
def exState : State :=
  ⟨[⟨1, "Xavier", "x@a.com", none⟩],
   [⟨1, "P1", 1000, 5⟩, ⟨2, "P2", 550, 3⟩], [], 2, 3, 1⟩

/-! ### Helper lemmas -/

/-- A failed `createCustomer` call raises before `save()`: the store is
untouched. -/
theorem createCustomer_error_state (s : State) (inp : CustomerInput) (e : Err)
    (h : (createCustomer s inp).1 = .error e) : (createCustomer s inp).2 = s := by
  by_cases h1 : emailExists s inp.email = true
  · simp [createCustomer, h1]
  · by_cases h2 : customerValid inp.name inp.email inp.phone = true
    · simp [createCustomer, h1, h2] at h
    · simp [createCustomer, h1, h2]

/-- A successful `createCustomer` saves exactly one row carrying the input's
email. -/
theorem createCustomer_ok_state (s : State) (inp : CustomerInput) (c : Customer)
    (h : (createCustomer s inp).1 = .ok c) :
    c = ⟨s.nextCustomerId, inp.name, inp.email, inp.phone⟩ ∧
    (createCustomer s inp).2 =
      { s with customers := s.customers ++ [c],
               nextCustomerId := s.nextCustomerId + 1 } := by
  by_cases h1 : emailExists s inp.email = true
  · simp [createCustomer, h1] at h
  · by_cases h2 : customerValid inp.name inp.email inp.phone = true
    · simp [createCustomer, h1, h2] at h ⊢
      exact ⟨h.symm, h⟩
    · simp [createCustomer, h1, h2] at h

/-- Any `createCustomer` step preserves the presence of an email in the
store: rows are only ever appended. -/
theorem emailExists_step (s : State) (d : CustomerInput) (e : String)
    (h : emailExists s e = true) :
    emailExists (createCustomer s d).2 e = true := by
  by_cases h1 : emailExists s d.email = true
  · simpa [createCustomer, h1] using h
  · by_cases h2 : customerValid d.name d.email d.phone = true
    · unfold emailExists at h ⊢
      simp [createCustomer, h1, h2]
      rcases List.any_eq_true.mp h with ⟨c, hc, hce⟩
      exact Or.inl ⟨c, hc, of_decide_eq_true hce⟩
    · simpa [createCustomer, h1, h2] using h

/-- C6: a `createCustomer` call whose email is already stored fails with the
duplicate-email error naming the conflicting email and creates no row; more
generally every failed `createCustomer` call leaves the store unchanged. -/
theorem createCustomer_duplicate_email (s : State) (inp : CustomerInput) :
    (emailExists s inp.email = true →
      createCustomer s inp = (.error (.emailExists inp.email), s)) ∧
    (∀ e, (createCustomer s inp).1 = .error e → (createCustomer s inp).2 = s) := by
  refine ⟨fun h => ?_, fun e he => createCustomer_error_state s inp e he⟩
  simp [createCustomer, h]

/-- Witness for `createCustomer_duplicate_email`: reusing the stored email
`x@a.com` of `exState` fails and leaves the store as it was. -/
theorem createCustomer_duplicate_email_witness :
    emailExists exState "x@a.com" = true ∧
    createCustomer exState ⟨"Yara", "x@a.com", none⟩ =
      (.error (.emailExists "x@a.com"), exState) :=
  ⟨by decide,
   (createCustomer_duplicate_email exState ⟨"Yara", "x@a.com", none⟩).1 (by decide)⟩

/-- C8: a failed `createCustomer` call is a no-op on the store, so repeating
it with the same input fails with the very same error from the very same
state. -/
theorem createCustomer_failed_idempotent (s : State) (inp : CustomerInput)
    (e : Err) (h : (createCustomer s inp).1 = .error e) :
    createCustomer s inp = (.error e, s) ∧
    createCustomer ((createCustomer s inp).2) inp = createCustomer s inp := by
  have hs : (createCustomer s inp).2 = s := createCustomer_error_state s inp e h
  constructor
  · calc createCustomer s inp = ((createCustomer s inp).1, (createCustomer s inp).2) := rfl
      _ = (.error e, s) := by rw [h, hs]
  · rw [hs]

/-- Witness for `createCustomer_failed_idempotent`: the malformed phone
`"12"` fails identically on repetition from the unchanged store. -/
theorem createCustomer_failed_idempotent_witness :
    (createCustomer State.empty ⟨"Ann", "ann@a.com", some "12"⟩).1 =
      .error .invalidCustomer ∧
    createCustomer State.empty ⟨"Ann", "ann@a.com", some "12"⟩ =
      (.error .invalidCustomer, State.empty) ∧
    createCustomer ((createCustomer State.empty ⟨"Ann", "ann@a.com", some "12"⟩).2)
        ⟨"Ann", "ann@a.com", some "12"⟩ =
      createCustomer State.empty ⟨"Ann", "ann@a.com", some "12"⟩ :=
  ⟨by decide,
   (createCustomer_failed_idempotent State.empty ⟨"Ann", "ann@a.com", some "12"⟩
      .invalidCustomer (by decide)).1,
   (createCustomer_failed_idempotent State.empty ⟨"Ann", "ann@a.com", some "12"⟩
      .invalidCustomer (by decide)).2⟩

/-- An optional regex atom consumes at most one character. -/
theorem stripOpt_length (c : Char) (l l1 : List Char) (h : l1 ∈ stripOpt c l) :
    l.length ≤ l1.length + 1 := by
  unfold stripOpt at h
  match l with
  | [] =>
      simp at h
      subst h
      simp
  | x :: xs =>
      by_cases hx : x = c
      · simp [hx] at h
        rcases h with h | h <;> subst h <;> simp
      · simp [hx] at h
        subst h
        exact Nat.le_succ _

/-- A match of the international alternative is at most 17 characters long. -/
theorem phoneBranchIntl_length (l : List Char) (h : phoneBranchIntl l = true) :
    l.length ≤ 17 := by
  unfold phoneBranchIntl at h
  rcases List.any_eq_true.mp h with ⟨l1, h1, h2⟩
  rcases List.any_eq_true.mp h2 with ⟨l2, h3, h4⟩
  have e1 := stripOpt_length '+' l l1 h1
  have e2 := stripOpt_length '1' l1 l2 h3
  unfold digitsRun at h4
  simp [Bool.and_eq_true] at h4
  omega

/-- A match of the dashed alternative is exactly 12 characters long. -/
theorem phoneBranchDashed_length (l : List Char)
    (h : phoneBranchDashed l = true) : l.length = 12 := by
  unfold phoneBranchDashed at h
  split at h
  · simp
  · exact absurd h (by simp)

/-- Any string accepted by `phone_regex` fits the `max_length=17` bound. -/
theorem phone_regex_length (s : String) (h : phone_regex s = true) :
    s.length ≤ 17 := by
  have hl : s.toList.length = s.length := rfl
  unfold phone_regex at h
  rcases (Bool.or_eq_true _ _).mp h with h | h
  · rw [← hl]
    exact phoneBranchIntl_length _ h
  · rw [← hl, phoneBranchDashed_length _ h]
    omega

/-- C3 counterexample: the bare digit string `123456789` matches neither of
the two formats the spec names (it is not `+`-prefixed and not
`NNN-NNN-NNNN`), yet `phone_regex` accepts it (the `+` in `\+?1?\d{9,15}` is
optional) and customer creation succeeds with it. -/
theorem phone_spec_format_counterexample :
    specPhoneFormat "123456789" = false ∧
    phone_regex "123456789" = true ∧
    (createCustomer State.empty
      ⟨"Alice", "alice@example.com", some "123456789"⟩).1.isOk = true := by
  decide

/-- C3 amended: with the other fields valid and the email unused, creation
with a supplied non-empty phone succeeds exactly when the phone matches
`phone_regex`, i.e. an optional `+`, then an optional `1`, then 9–15 digits,
or `NNN-NNN-NNNN`; on a non-match it fails with the validation error. -/
theorem createCustomer_phone_validation (s : State) (inp : CustomerInput)
    (p : String) (hp : inp.phone = some p) (hne : p.isEmpty = false)
    (hdup : emailExists s inp.email = false)
    (hname : inp.name.isEmpty = false) (hlen : inp.name.length ≤ 255)
    (hemail : emailValid inp.email = true) :
    ((createCustomer s inp).1.isOk = true ↔ phone_regex p = true) ∧
    (phone_regex p = false →
      (createCustomer s inp).1 = .error .invalidCustomer) := by
  have hv : customerValid inp.name inp.email inp.phone = phone_regex p := by
    unfold customerValid phoneValid
    rw [hp]
    cases hr : phone_regex p
    · simp [hname, hlen, hemail, hne, hr]
    · have hb := phone_regex_length p hr
      simp [hname, hlen, hemail, hne, hb, hr]
  refine ⟨?_, fun hr => ?_⟩
  · cases hr : phone_regex p
    · rw [hr] at hv
      simp [createCustomer, hdup, hv, Except.isOk, Except.toBool]
    · rw [hr] at hv
      simp [createCustomer, hdup, hv, Except.isOk, Except.toBool]
  · rw [hr] at hv
    simp [createCustomer, hdup, hv]

/-- Witness for `createCustomer_phone_validation`: the `+`-prefixed
ten-digit phone `+1234567890` is accepted. -/
theorem createCustomer_phone_validation_witness :
    phone_regex "+1234567890" = true ∧
    (createCustomer State.empty
      ⟨"Bob", "bob@example.com", some "+1234567890"⟩).1.isOk = true :=
  ⟨by decide,
   (createCustomer_phone_validation State.empty
      ⟨"Bob", "bob@example.com", some "+1234567890"⟩ "+1234567890"
      rfl (by decide) (by decide) (by decide) (by decide) (by decide)).1.mpr
     (by decide)⟩

/-- C7: `createProduct` rejects a non-positive price, then a negative
(supplied or defaulted) stock, each with the corresponding validation error
and no write; with a positive price, a non-negative effective stock
(defaulting to 0 when omitted) and valid remaining fields it persists exactly
the new product row. -/
theorem createProduct_validation (s : State) (inp : ProductInput) :
    (inp.price ≤ 0 → createProduct s inp = (.error .priceNotPositive, s)) ∧
    (0 < inp.price → inp.stock.getD 0 < 0 →
      createProduct s inp = (.error .negativeStock, s)) ∧
    (0 < inp.price → 0 ≤ inp.stock.getD 0 →
      productValid inp.name inp.price = true →
      createProduct s inp =
        (.ok ⟨s.nextProductId, inp.name, inp.price, inp.stock.getD 0⟩,
         { s with
             products :=
               s.products ++ [⟨s.nextProductId, inp.name, inp.price,
                               inp.stock.getD 0⟩],
             nextProductId := s.nextProductId + 1 })) := by
  refine ⟨fun h1 => ?_, fun h1 h2 => ?_, fun h1 h2 h3 => ?_⟩
  · simp [createProduct, h1]
  · simp [createProduct, h2, Int.not_le.mpr h1]
  · simp [createProduct, Int.not_le.mpr h1, Int.not_lt.mpr h2, h3]

/-- Witness for `createProduct_validation`: price 0 and price -5.00 fail,
stock -1 fails, and price 9.99 with stock 0 succeeds and is persisted. -/
theorem createProduct_validation_witness :
    createProduct State.empty ⟨"W", 0, none⟩ =
      (.error .priceNotPositive, State.empty) ∧
    createProduct State.empty ⟨"W", -500, none⟩ =
      (.error .priceNotPositive, State.empty) ∧
    createProduct State.empty ⟨"W", 999, some (-1)⟩ =
      (.error .negativeStock, State.empty) ∧
    createProduct State.empty ⟨"W", 999, some 0⟩ =
      (.ok ⟨1, "W", 999, 0⟩,
       { State.empty with products := [⟨1, "W", 999, 0⟩], nextProductId := 2 }) :=
  ⟨(createProduct_validation State.empty ⟨"W", 0, none⟩).1 (by decide),
   (createProduct_validation State.empty ⟨"W", -500, none⟩).1 (by decide),
   (createProduct_validation State.empty ⟨"W", 999, some (-1)⟩).2.1
     (by decide) (by decide),
   (createProduct_validation State.empty ⟨"W", 999, some 0⟩).2.2
     (by decide) (by decide) (by decide)⟩

/-- `Product.objects.get(pk=id)` returns a row with that primary key. -/
theorem findProduct_id (s : State) (pid : Nat) (p : Product)
    (h : findProduct s pid = some p) : p.id = pid := by
  unfold findProduct at h
  have := List.find?_some h
  simpa using this

/-- Every product resolved by the loop is the row its id looks up. -/
theorem resolveProducts_ok_mem (s : State) (l : List Nat) (ps : List Product)
    (h : resolveProducts s l = .ok ps) :
    ∀ p ∈ ps, findProduct s p.id = some p := by
  induction l generalizing ps with
  | nil =>
      unfold resolveProducts at h
      cases h
      simp
  | cons pid rest ih =>
      unfold resolveProducts at h
      cases hf : findProduct s pid with
      | none => rw [hf] at h; cases h
      | some p =>
          rw [hf] at h
          cases hr : resolveProducts s rest with
          | error e => rw [hr] at h; cases h
          | ok ps1 =>
              rw [hr] at h
              cases h
              intro q hq
              rcases List.mem_cons.mp hq with hq | hq
              · subst hq
                rw [findProduct_id s pid q hf]
                exact hf
              · exact ih ps1 hr q hq

/-- The resolved product list's ids are exactly the input id list. -/
theorem resolveProducts_map_id (s : State) (l : List Nat) (ps : List Product)
    (h : resolveProducts s l = .ok ps) : ps.map (·.id) = l := by
  induction l generalizing ps with
  | nil =>
      unfold resolveProducts at h
      cases h
      rfl
  | cons pid rest ih =>
      unfold resolveProducts at h
      cases hf : findProduct s pid with
      | none => rw [hf] at h; cases h
      | some p =>
          rw [hf] at h
          cases hr : resolveProducts s rest with
          | error e => rw [hr] at h; cases h
          | ok ps1 =>
              rw [hr] at h
              cases h
              simp [findProduct_id s pid p hf, ih ps1 hr]

/-- Looking the ids of self-resolving rows back up returns those rows. -/
theorem filterMap_findProduct (s : State) (ps : List Product)
    (h : ∀ p ∈ ps, findProduct s p.id = some p) :
    (ps.map (·.id)).filterMap (findProduct s) = ps := by
  induction ps with
  | nil => rfl
  | cons p ps1 ih =>
      simp only [List.map_cons, List.filterMap_cons]
      rw [h p (List.mem_cons_self p ps1)]
      rw [ih fun q hq => h q (List.mem_cons_of_mem p hq)]


/-- `Customer.objects.get(pk=id)` returns a row with that primary key. -/
theorem findCustomer_id (s : State) (cid : Nat) (c : Customer)
    (h : findCustomer s cid = some c) : c.id = cid := by
  unfold findCustomer at h
  have := List.find?_some h
  simpa using this

/-- A successful resolution of a non-empty id list is non-empty. -/
theorem resolveProducts_cons_ne_nil (s : State) (pid : Nat) (rest : List Nat)
    (prods : List Product)
    (h : resolveProducts s (pid :: rest) = .ok prods) : prods ≠ [] := by
  unfold resolveProducts at h
  cases hf : findProduct s pid with
  | none => rw [hf] at h; cases h
  | some p =>
      rw [hf] at h
      cases hr : resolveProducts s rest with
      | error e => rw [hr] at h; cases h
      | ok ps =>
          rw [hr] at h
          cases h
          simp

/-- Resolution fails on the first id that does not look up, regardless of
what follows. -/
theorem resolveProducts_first_missing (s : State) (l1 : List Nat) (pid : Nat)
    (l2 : List Nat) (h1 : ∀ q ∈ l1, (findProduct s q).isSome = true)
    (h2 : findProduct s pid = none) :
    resolveProducts s (l1 ++ pid :: l2) = .error (.productNotFound pid) := by
  induction l1 with
  | nil =>
      simp only [List.nil_append]
      unfold resolveProducts
      rw [h2]
  | cons q rest ih =>
      have hq : (findProduct s q).isSome = true :=
        h1 q (List.mem_cons_self q rest)
      rcases Option.isSome_iff_exists.mp hq with ⟨p, hp⟩
      simp only [List.cons_append]
      unfold resolveProducts
      rw [hp, ih fun r hr => h1 r (List.mem_cons_of_mem q hr)]

/-- On success the transaction wrapper commits the body's writes. -/
theorem createOrder_eq_core_of_ok (s : State) (inp : OrderInput) (o : Order)
    (h : (createOrderCore s inp).1 = .ok o) :
    createOrder s inp = createOrderCore s inp := by
  unfold createOrder
  cases hco : createOrderCore s inp with
  | mk r s1 =>
      cases r with
      | ok o1 => rfl
      | error e => rw [hco] at h; cases h

/-- The wrapper returns the body's result. -/
theorem createOrder_fst (s : State) (inp : OrderInput) :
    (createOrder s inp).1 = (createOrderCore s inp).1 := by
  unfold createOrder
  cases hco : createOrderCore s inp with
  | mk r s1 => cases r <;> simp

/-- Shape of every successful order-creation body: the resolved non-empty
product list is deduplicated, its ids become the association, its price sum
the snapshot total, and exactly one Order row is appended. -/
theorem createOrderCore_ok_shape (s : State) (inp : OrderInput) (o : Order)
    (h : (createOrderCore s inp).1 = .ok o) :
    ∃ prods, resolveProducts s inp.productIds = .ok prods ∧ prods ≠ [] ∧
      o = ⟨s.nextOrderId, inp.customerId, (prods.dedup).map (·.id),
           ((prods.dedup).map (·.price)).sum⟩ ∧
      (createOrderCore s inp).2 =
        { s with orders := s.orders ++ [o],
                 nextOrderId := s.nextOrderId + 1 } := by
  unfold createOrderCore at h ⊢
  cases hc : findCustomer s inp.customerId with
  | none => rw [hc] at h; exact Except.noConfusion h
  | some c =>
      rw [hc] at h
      have hid : c.id = inp.customerId := findCustomer_id s _ c hc
      cases hl : inp.productIds with
      | nil => rw [hl] at h; exact Except.noConfusion h
      | cons pid rest =>
          rw [hl] at h
          cases hr : resolveProducts s (pid :: rest) with
          | error e => rw [hr] at h; exact Except.noConfusion h
          | ok prods =>
              rw [hr] at h
              have h2 : (Except.ok
                  (⟨s.nextOrderId, c.id, (prods.dedup).map (·.id),
                    ((prods.dedup).map (·.price)).sum⟩ : Order) :
                  Except Err Order) = .ok o := h
              cases h2
              refine ⟨prods, rfl, resolveProducts_cons_ne_nil s pid rest prods hr,
                ?_, ?_⟩
              · rw [hid]
              · rfl

/-- A failed `createOrder` call rolls the transaction back to the initial
store. -/
theorem createOrder_error_state (s : State) (inp : OrderInput) (e : Err)
    (h : (createOrder s inp).1 = .error e) : (createOrder s inp).2 = s := by
  unfold createOrder at h ⊢
  cases hco : createOrderCore s inp with
  | mk r s1 =>
      rw [hco] at h
      cases r with
      | ok o => exact Except.noConfusion h
      | error e1 => rfl

/-- Success facts of `createOrder` used across the order properties: the
association is the deduplicated resolved list, looking its ids back up
recovers it, and the snapshot total is its price sum. -/
theorem createOrder_ok_assoc (s : State) (inp : OrderInput) (o : Order)
    (h : (createOrder s inp).1 = .ok o) :
    ∃ prods, resolveProducts s inp.productIds = .ok prods ∧ prods ≠ [] ∧
      o.productIds = (prods.dedup).map (·.id) ∧
      o.productIds.filterMap (findProduct s) = prods.dedup ∧
      o.totalAmount = ((prods.dedup).map (·.price)).sum ∧
      (createOrder s inp).2 =
        { s with orders := s.orders ++ [o],
                 nextOrderId := s.nextOrderId + 1 } := by
  have hcore : (createOrderCore s inp).1 = .ok o := by
    rw [← createOrder_fst]; exact h
  obtain ⟨prods, hres, hne, ho, hst⟩ := createOrderCore_ok_shape s inp o hcore
  have hmem : ∀ p ∈ prods.dedup, findProduct s p.id = some p := fun p hp =>
    resolveProducts_ok_mem s inp.productIds prods hres p (List.mem_dedup.mp hp)
  refine ⟨prods, hres, hne, by rw [ho], ?_, by rw [ho], ?_⟩
  · rw [ho]
    exact filterMap_findProduct s prods.dedup hmem
  · rw [createOrder_eq_core_of_ok s inp o hcore]
    exact hst

/-- C1: a `createOrder` call that fails at any step leaves the entity store
unchanged (no Order row, no association); a successful call persists exactly
one Order row, and that row carries a non-empty product association and the
total computed from it. -/
theorem createOrder_transactional (s : State) (inp : OrderInput) :
    (∀ e, (createOrder s inp).1 = .error e → (createOrder s inp).2 = s) ∧
    (∀ o, (createOrder s inp).1 = .ok o →
      (createOrder s inp).2 =
        { s with orders := s.orders ++ [o],
                 nextOrderId := s.nextOrderId + 1 } ∧
      o.productIds ≠ [] ∧
      o.totalAmount =
        ((o.productIds.filterMap (findProduct s)).map (·.price)).sum) := by
  refine ⟨fun e he => createOrder_error_state s inp e he, fun o ho => ?_⟩
  obtain ⟨prods, hres, hne, hids, hback, htot, hst⟩ :=
    createOrder_ok_assoc s inp o ho
  refine ⟨hst, ?_, ?_⟩
  · rw [hids]
    simp [List.dedup_eq_nil, hne]
  · rw [hback, htot]

/-- Witness for `createOrder_transactional`: a missing customer id rolls
back to the initial store, and the successful two-product order is persisted
with association and total. -/
theorem createOrder_transactional_witness :
    ((createOrder exState ⟨9, [1]⟩).1 = .error (.customerNotFound 9) ∧
      (createOrder exState ⟨9, [1]⟩).2 = exState) ∧
    ((createOrder exState ⟨1, [1, 2]⟩).1 = .ok ⟨1, 1, [1, 2], 1550⟩ ∧
      (createOrder exState ⟨1, [1, 2]⟩).2 =
        { exState with orders := exState.orders ++ [⟨1, 1, [1, 2], 1550⟩],
                       nextOrderId := 2 }) :=
  ⟨⟨by decide,
    (createOrder_transactional exState ⟨9, [1]⟩).1 (.customerNotFound 9)
      (by decide)⟩,
   ⟨by decide,
    ((createOrder_transactional exState ⟨1, [1, 2]⟩).2 ⟨1, 1, [1, 2], 1550⟩
      (by decide)).1⟩⟩

/-- C2: every successful `createOrder` call persists as `total_amount` the
sum of the current prices of the products associated with the order, and the
association consists of exactly the requested product ids. -/
theorem createOrder_total_amount (s : State) (inp : OrderInput) (o : Order)
    (h : (createOrder s inp).1 = .ok o) :
    o.totalAmount =
      ((o.productIds.filterMap (findProduct s)).map (·.price)).sum ∧
    (∀ pid, pid ∈ o.productIds ↔ pid ∈ inp.productIds) := by
  obtain ⟨prods, hres, hne, hids, hback, htot, hst⟩ :=
    createOrder_ok_assoc s inp o h
  have hmap := resolveProducts_map_id s inp.productIds prods hres
  refine ⟨by rw [hback, htot], fun pid => ?_⟩
  rw [hids, ← hmap]
  constructor
  · intro hin
    rcases List.mem_map.mp hin with ⟨p, hp, rfl⟩
    exact List.mem_map_of_mem _ (List.mem_dedup.mp hp)
  · intro hin
    rcases List.mem_map.mp hin with ⟨p, hp, rfl⟩
    exact List.mem_map_of_mem _ (List.mem_dedup.mpr hp)

/-- Witness for `createOrder_total_amount`: products priced 10.00 and 5.50
yield an order with total 15.50 whose association is `{1, 2}`. -/
theorem createOrder_total_amount_witness :
    (createOrder exState ⟨1, [1, 2]⟩).1 = .ok ⟨1, 1, [1, 2], 1550⟩ ∧
    (⟨1, 1, [1, 2], 1550⟩ : Order).totalAmount =
      ((([1, 2] : List Nat).filterMap (findProduct exState)).map
        (·.price)).sum ∧
    ((1 : Nat) ∈ (⟨1, 1, [1, 2], 1550⟩ : Order).productIds ↔
      (1 : Nat) ∈ [1, 2]) :=
  ⟨by decide,
   (createOrder_total_amount exState ⟨1, [1, 2]⟩ ⟨1, 1, [1, 2], 1550⟩
      (by decide)).1,
   (createOrder_total_amount exState ⟨1, [1, 2]⟩ ⟨1, 1, [1, 2], 1550⟩
      (by decide)).2 1⟩

/-- C9: on a successful `createOrder` call with duplicate ids in
`product_ids`, the persisted association holds each distinct product exactly
once (the m2m `set` dedupes) and the total counts each distinct product's
price exactly once. -/
theorem createOrder_dedup (s : State) (inp : OrderInput) (o : Order)
    (h : (createOrder s inp).1 = .ok o) :
    o.productIds.Nodup ∧
    (∀ pid, pid ∈ o.productIds ↔ pid ∈ inp.productIds) ∧
    o.totalAmount =
      ((o.productIds.filterMap (findProduct s)).map (·.price)).sum := by
  obtain ⟨prods, hres, hne, hids, hback, htot, hst⟩ :=
    createOrder_ok_assoc s inp o h
  have hmap := resolveProducts_map_id s inp.productIds prods hres
  have hself : ∀ p ∈ prods.dedup, findProduct s p.id = some p := fun p hp =>
    resolveProducts_ok_mem s inp.productIds prods hres p (List.mem_dedup.mp hp)
  refine ⟨?_, fun pid => ?_, by rw [hback, htot]⟩
  · rw [hids]
    refine List.Nodup.map_on ?_ (List.nodup_dedup prods)
    intro p hp q hq hpq
    have h1 := hself p hp
    have h2 := hself q hq
    rw [hpq, h2] at h1
    exact (Option.some.inj h1).symm
  · rw [hids, ← hmap]
    constructor
    · intro hin
      rcases List.mem_map.mp hin with ⟨p, hp, rfl⟩
      exact List.mem_map_of_mem _ (List.mem_dedup.mp hp)
    · intro hin
      rcases List.mem_map.mp hin with ⟨p, hp, rfl⟩
      exact List.mem_map_of_mem _ (List.mem_dedup.mpr hp)

/-- Witness for `createOrder_dedup`: requesting `[1, 1]` associates product 1
once and totals its price once (10.00, not 20.00). -/
theorem createOrder_dedup_witness :
    (createOrder exState ⟨1, [1, 1]⟩).1 = .ok ⟨1, 1, [1], 1000⟩ ∧
    (⟨1, 1, [1], 1000⟩ : Order).productIds.Nodup ∧
    (⟨1, 1, [1], 1000⟩ : Order).totalAmount =
      ((([1] : List Nat).filterMap (findProduct exState)).map (·.price)).sum :=
  ⟨by decide,
   (createOrder_dedup exState ⟨1, [1, 1]⟩ ⟨1, 1, [1], 1000⟩ (by decide)).1,
   (createOrder_dedup exState ⟨1, [1, 1]⟩ ⟨1, 1, [1], 1000⟩ (by decide)).2.2⟩

/-- C5: a `createOrder` call whose customer id does not resolve fails with
the customer-not-found error; a call whose customer resolves but whose
`product_ids` contains an unresolved id fails with the product-not-found
error for the first unresolved id in input order. Both failures leave the
store unchanged. -/
theorem createOrder_not_found (s : State) (inp : OrderInput) :
    (findCustomer s inp.customerId = none →
      createOrder s inp = (.error (.customerNotFound inp.customerId), s)) ∧
    ((findCustomer s inp.customerId).isSome = true →
      ∀ l1 pid l2, inp.productIds = l1 ++ pid :: l2 →
        (∀ q ∈ l1, (findProduct s q).isSome = true) →
        findProduct s pid = none →
        createOrder s inp = (.error (.productNotFound pid), s)) := by
  constructor
  · intro hnone
    unfold createOrder createOrderCore
    rw [hnone]
  · intro hs l1 pid l2 hl hall hmiss
    rcases Option.isSome_iff_exists.mp hs with ⟨c, hc⟩
    have hres := resolveProducts_first_missing s l1 pid l2 hall hmiss
    obtain ⟨q0, rest0, hcons⟩ :
        ∃ q0 rest0, l1 ++ pid :: l2 = q0 :: rest0 := by
      cases l1 with
      | nil => exact ⟨pid, l2, rfl⟩
      | cons q l1x => exact ⟨q, l1x ++ pid :: l2, rfl⟩
    rw [hcons] at hres
    unfold createOrder createOrderCore
    rw [hc, hl, hcons, hres]

/-- Witness for `createOrder_not_found`: customer id 9 is absent; with
customer 1 present, ids `[1, 7, 8]` fail on 7, the first unresolved id. -/
theorem createOrder_not_found_witness :
    createOrder exState ⟨9, [1]⟩ = (.error (.customerNotFound 9), exState) ∧
    createOrder exState ⟨1, [1, 7, 8]⟩ =
      (.error (.productNotFound 7), exState) :=
  ⟨(createOrder_not_found exState ⟨9, [1]⟩).1 (by decide),
   (createOrder_not_found exState ⟨1, [1, 7, 8]⟩).2 (by decide) [1] 7 [8] rfl
     (by decide) (by decide)⟩

/-- The accumulating bulk loop equals its three projections: the successful
rows' customers, the rendered per-row errors, and the final store. -/
theorem bulkGo_eq (s : State) (idx : Nat) (l : List CustomerInput) :
    bulkGo s idx l =
      (okCustomers (rowOutcomes s l), renderErrors idx (rowOutcomes s l),
       bulkFinal s l) := by
  induction l generalizing s idx with
  | nil => rfl
  | cons d rest ih =>
      cases hcd : createCustomer s d with
      | mk r s1 =>
          cases r with
          | ok c =>
              simp only [bulkGo, rowOutcomes, bulkFinal, okCustomers,
                renderErrors, hcd, ih]
          | error e =>
              simp only [bulkGo, rowOutcomes, bulkFinal, okCustomers,
                renderErrors, hcd, ih]

/-- Every outcome becomes either a customer or exactly one error string. -/
theorem okCustomers_renderErrors_length (idx : Nat)
    (l : List (Except Err Customer)) :
    (okCustomers l).length + (renderErrors idx l).length = l.length := by
  induction l generalizing idx with
  | nil => rfl
  | cons r rest ih =>
      cases r with
      | ok c =>
          simp only [okCustomers, renderErrors, List.length_cons]
          have := ih (idx + 1)
          omega
      | error e =>
          simp only [okCustomers, renderErrors, List.length_cons]
          have := ih (idx + 1)
          omega

/-- The loop produces one outcome per input row. -/
theorem rowOutcomes_length (s : State) (l : List CustomerInput) :
    (rowOutcomes s l).length = l.length := by
  induction l generalizing s with
  | nil => rfl
  | cons d rest ih => simp only [rowOutcomes, List.length_cons, ih]

/-- A failed outcome at 0-based position `i` is reported with its absolute
1-based row number. -/
theorem renderErrors_get (idx i : Nat) (e : Err)
    (l : List (Except Err Customer)) (h : l.get? i = some (.error e)) :
    rowError (idx + i) e ∈ renderErrors idx l := by
  induction l generalizing idx i with
  | nil => simp at h
  | cons r rest ih =>
      cases i with
      | zero =>
          have hr : r = .error e := by simpa using h
          subst hr
          simp [renderErrors]
      | succ i1 =>
          have h1 : rest.get? i1 = some (.error e) := by simpa using h
          have ihm := ih (idx + 1) i1 h1
          have harith : idx + 1 + i1 = idx + (i1 + 1) := by omega
          rw [harith] at ihm
          cases r with
          | ok c => exact ihm
          | error e1 => exact List.mem_cons_of_mem _ ihm

/-- C4: the bulk result lists exactly the successfully created customers in
input order and one `Row N: <reason>` string per failed candidate, `N` being
the candidate's 1-based position in the original input (errors collapse to
`None` only when no row failed); every row yields exactly one of the two, so
a failed row never aborts the processing of later rows. -/
theorem bulkCreateCustomers_row_reporting (s : State)
    (input : List CustomerInput) :
    (bulkCreateCustomers s input).1.customers =
      okCustomers (rowOutcomes s input) ∧
    (bulkCreateCustomers s input).1.errors =
      (if (renderErrors 0 (rowOutcomes s input)).isEmpty then none
       else some (renderErrors 0 (rowOutcomes s input))) ∧
    (bulkCreateCustomers s input).1.customers.length +
      (renderErrors 0 (rowOutcomes s input)).length = input.length ∧
    (∀ i e, (rowOutcomes s input).get? i = some (.error e) →
      rowError i e ∈ renderErrors 0 (rowOutcomes s input)) := by
  refine ⟨?_, ?_, ?_, ?_⟩
  · unfold bulkCreateCustomers
    rw [bulkGo_eq]
  · unfold bulkCreateCustomers
    rw [bulkGo_eq]
  · unfold bulkCreateCustomers
    rw [bulkGo_eq]
    show (okCustomers (rowOutcomes s input)).length + _ = _
    rw [okCustomers_renderErrors_length 0 (rowOutcomes s input),
      rowOutcomes_length]
  · intro i e he
    have := renderErrors_get 0 i e (rowOutcomes s input) he
    simpa using this

/-- Witness for `bulkCreateCustomers_row_reporting`: the batch
`[A, B duplicate of A, C]` creates `[A, C]` and reports
`Row 2: Email a@x.com already exists`. -/
theorem bulkCreateCustomers_row_reporting_witness :
    (bulkCreateCustomers State.empty
        [⟨"A", "a@x.com", none⟩, ⟨"B", "a@x.com", none⟩,
         ⟨"C", "c@x.com", none⟩]).1.customers =
      [⟨1, "A", "a@x.com", none⟩, ⟨2, "C", "c@x.com", none⟩] ∧
    (bulkCreateCustomers State.empty
        [⟨"A", "a@x.com", none⟩, ⟨"B", "a@x.com", none⟩,
         ⟨"C", "c@x.com", none⟩]).1.errors =
      some ["Row 2: Email a@x.com already exists"] ∧
    rowError 1 (.emailExists "a@x.com") ∈
      renderErrors 0 (rowOutcomes State.empty
        [⟨"A", "a@x.com", none⟩, ⟨"B", "a@x.com", none⟩,
         ⟨"C", "c@x.com", none⟩]) :=
  ⟨by decide, by decide,
   (bulkCreateCustomers_row_reporting State.empty
      [⟨"A", "a@x.com", none⟩, ⟨"B", "a@x.com", none⟩,
       ⟨"C", "c@x.com", none⟩]).2.2.2 1 (.emailExists "a@x.com") (by decide)⟩

/-- After a successful `createCustomer`, the saved email is present. -/
theorem createCustomer_ok_email (s : State) (inp : CustomerInput)
    (c : Customer) (h : (createCustomer s inp).1 = .ok c) :
    emailExists (createCustomer s inp).2 inp.email = true := by
  obtain ⟨hc, hs⟩ := createCustomer_ok_state s inp c h
  rw [hs]
  unfold emailExists
  refine List.any_eq_true.mpr ⟨c, by simp, ?_⟩
  rw [hc]
  simp

/-- The bulk loop over a concatenation processes the first part, then the
second from the resulting store with shifted absolute positions. -/
theorem bulkGo_append (s : State) (idx : Nat) (l1 l2 : List CustomerInput) :
    bulkGo s idx (l1 ++ l2) =
      ((bulkGo s idx l1).1 ++
         (bulkGo (bulkGo s idx l1).2.2 (idx + l1.length) l2).1,
       (bulkGo s idx l1).2.1 ++
         (bulkGo (bulkGo s idx l1).2.2 (idx + l1.length) l2).2.1,
       (bulkGo (bulkGo s idx l1).2.2 (idx + l1.length) l2).2.2) := by
  induction l1 generalizing s idx with
  | nil => simp [bulkGo]
  | cons d rest ih =>
      cases hcd : createCustomer s d with
      | mk r s1 =>
          have harith : idx + 1 + rest.length = idx + (rest.length + 1) := by
            omega
          cases r with
          | ok c =>
              simp only [List.cons_append, bulkGo, hcd, List.length_cons,
                List.append_eq]
              rw [ih, harith]
          | error e =>
              simp only [List.cons_append, bulkGo, hcd, List.length_cons,
                List.append_eq]
              rw [ih, harith]

/-- Once an email is present in the store, any later row carrying it fails
with the duplicate-email row error at its absolute position. -/
theorem bulkGo_mem_error (s : State) (idx p : Nat)
    (rest : List CustomerInput) (b : CustomerInput)
    (hb : rest.get? p = some b) (he : emailExists s b.email = true) :
    rowError (idx + p) (.emailExists b.email) ∈ (bulkGo s idx rest).2.1 := by
  induction rest generalizing s idx p with
  | nil => simp at hb
  | cons d rest1 ih =>
      cases p with
      | zero =>
          have hbd : d = b := by simpa using hb
          subst hbd
          have hc : createCustomer s d = (.error (.emailExists d.email), s) := by
            simp [createCustomer, he]
          simp [bulkGo, hc]
      | succ p1 =>
          have hb1 : rest1.get? p1 = some b := by simpa using hb
          have he1 : emailExists (createCustomer s d).2 b.email = true :=
            emailExists_step s d b.email he
          cases hcd : createCustomer s d with
          | mk r s1 =>
              have he2 : emailExists s1 b.email = true := by
                rw [hcd] at he1
                exact he1
              have ihm := ih s1 (idx + 1) p1 hb1 he2
              have harith : idx + 1 + p1 = idx + (p1 + 1) := by omega
              rw [harith] at ihm
              cases r with
              | ok c =>
                  simp only [bulkGo, hcd]
                  exact ihm
              | error e =>
                  simp only [bulkGo, hcd]
                  exact List.mem_cons_of_mem _ ihm

/-- C10: in a bulk batch where a later row reuses the email of an earlier
row that was created, the earlier row's customer is in the result and the
later row fails with the duplicate-email row error at its absolute 1-based
position — each valid row is saved before later rows run, so the per-row
pre-check catches batch-internal duplicates. -/
theorem bulkCreateCustomers_batch_duplicate (s : State)
    (pre rest : List CustomerInput) (a : CustomerInput) (p : Nat)
    (b : CustomerInput) (c : Customer)
    (ha : (createCustomer (bulkGo s 0 pre).2.2 a).1 = .ok c)
    (hb : rest.get? p = some b) (hmail : b.email = a.email) :
    c ∈ (bulkGo s 0 (pre ++ a :: rest)).1 ∧
    rowError (pre.length + 1 + p) (.emailExists b.email) ∈
      (bulkGo s 0 (pre ++ a :: rest)).2.1 := by
  rw [bulkGo_append]
  cases hca : createCustomer (bulkGo s 0 pre).2.2 a with
  | mk r s2 =>
      have hr : r = .ok c := by rw [hca] at ha; exact ha
      subst hr
      have hee : emailExists s2 b.email = true := by
        rw [hmail]
        have hmem := createCustomer_ok_email (bulkGo s 0 pre).2.2 a c ha
        rw [hca] at hmem
        exact hmem
      constructor
      · refine List.mem_append_right _ ?_
        simp only [bulkGo, hca]
        exact List.mem_cons_self _ _
      · refine List.mem_append_right _ ?_
        simp only [bulkGo, hca]
        have ihm := bulkGo_mem_error s2 (0 + pre.length + 1) p rest b hb hee
        have harith : 0 + pre.length + 1 + p = pre.length + 1 + p := by omega
        rw [harith] at ihm
        exact ihm

/-- Witness for `bulkCreateCustomers_batch_duplicate`: in the batch
`[A, B]` with `B` reusing `A`'s email, `A`'s customer is created and `B`
fails with `Row 2: Email a@x.com already exists`. -/
theorem bulkCreateCustomers_batch_duplicate_witness :
    (createCustomer (bulkGo State.empty 0 []).2.2 ⟨"A", "a@x.com", none⟩).1 =
      .ok ⟨1, "A", "a@x.com", none⟩ ∧
    (⟨1, "A", "a@x.com", none⟩ : Customer) ∈
      (bulkGo State.empty 0
        ([] ++ ⟨"A", "a@x.com", none⟩ :: [⟨"B", "a@x.com", none⟩])).1 ∧
    rowError 1 (.emailExists "a@x.com") ∈
      (bulkGo State.empty 0
        ([] ++ ⟨"A", "a@x.com", none⟩ :: [⟨"B", "a@x.com", none⟩])).2.1 :=
  ⟨by decide,
   (bulkCreateCustomers_batch_duplicate State.empty [] [⟨"B", "a@x.com", none⟩]
      ⟨"A", "a@x.com", none⟩ 0 ⟨"B", "a@x.com", none⟩
      ⟨1, "A", "a@x.com", none⟩ (by decide) (by decide) (by decide)).1,
   (bulkCreateCustomers_batch_duplicate State.empty [] [⟨"B", "a@x.com", none⟩]
      ⟨"A", "a@x.com", none⟩ 0 ⟨"B", "a@x.com", none⟩
      ⟨1, "A", "a@x.com", none⟩ (by decide) (by decide) (by decide)).2⟩
